import Mathlib

/-!
# Verification of the YouTube-to-tweets utility (`app.py`)

Shallow embedding of the pure logic of the single source file `app.py`:

* `extract_video_id` — URL-to-identifier extraction (including a faithful
  model of the relevant behaviour of `urllib.parse.urlparse` / `parse_qs`);
* `fetch_transcript_text` — fragment concatenation (the network call is
  abstracted: the function is modelled on the list of fragment texts the
  provider returned);
* `x_intent_url` — percent-encoding share-link builder
  (`urllib.parse.quote` with its default safe set, UTF-8 based);
* `generate_3_tweets` — response-shape validation of the model output
  (the network call is abstracted: the function is modelled on the JSON
  parse result of the response body);
* the transcript preview expression `transcript[:2000] + ("..." if ...)`.

Python strings are modelled as Lean `String` (sequences of unicode scalar
values), Python `bytes` values as `List Nat` with every element `< 256`,
machine-free.  Fallible code returns `Except String`.
-/

/-- The characters Python's `str.strip()` removes, restricted to the ASCII
whitespace set (`app.py` only ever strips user-typed URLs; the exotic
unicode whitespace Python also strips never changes any claim because the
id alphabet is disjoint from every whitespace set). -/
def isPyWS (c : Char) : Bool :=
  c == '\t' || c == '\n' || c == '\x0b' || c == '\x0c' || c == '\r' || c == ' '

/-- Drop elements satisfying `p` from both ends of a list. -/
def stripWhile (p : Char → Bool) (l : List Char) : List Char :=
  ((l.dropWhile p).reverse.dropWhile p).reverse

/-- Python `str.strip()` (no argument): trim whitespace from both ends. -/
def pyStrip (s : String) : String := String.mk (stripWhile isPyWS s.data)

/-- Python `str.strip("/")`: trim `'/'` characters from both ends
(used in `u.path.strip("/")`, `app.py` line 30). -/
def stripSlashes (s : String) : String := String.mk (stripWhile (· == '/') s.data)

/-- Python `s.split("/")[0]`: everything before the first `'/'`
(`app.py` line 30; `"".split("/")[0] = ""`). -/
def firstSegment (s : String) : String := String.mk (s.data.takeWhile (· != '/'))

/-- The character class `[A-Za-z0-9_-]` of the video-id regex. -/
def idAlphabet (c : Char) : Bool :=
  ('A' ≤ c && c ≤ 'Z') || ('a' ≤ c && c ≤ 'z') || ('0' ≤ c && c ≤ '9') ||
    c == '_' || c == '-'

/-- `re.fullmatch(r"[A-Za-z0-9_-]{11}", s)` viewed as a Boolean test:
the string is exactly 11 characters, all drawn from the id alphabet. -/
def fullmatch11 (s : String) : Bool :=
  (s.length == 11) && s.data.all idAlphabet

/-- One attempt of `re.search(r"/shorts/([A-Za-z0-9_-]{11})", path)` anchored
at the current position: the list starts with `"/shorts/"` followed by (at
least) 11 id-alphabet characters; on success returns the captured group. -/
def shortsAt (l : List Char) : Option String :=
  if l.take 8 = "/shorts/".data ∧ fullmatch11 (String.mk ((l.drop 8).take 11)) = true
  then some (String.mk ((l.drop 8).take 11))
  else none

/-- `re.search` scans left to right for the first position where the
`/shorts/` pattern matches (`app.py` line 42). -/
def shortsSearch : List Char → Option String
  | [] => none
  | c :: rest =>
    match shortsAt (c :: rest) with
    | some v => some v
    | none => shortsSearch rest

/- ### Model of `urllib.parse.urlsplit` / `urlparse`

Faithful to CPython's `urllib/parse.py` for the behaviours `app.py`
depends on: leading/trailing C0-control-or-space stripping, removal of
tab/CR/LF bytes, scheme recognition, `//`-netloc splitting with the
unbalanced-bracket `ValueError`, fragment and query splitting, and
parameter (`;`) removal performed by `urlparse` on top of `urlsplit`.
(The non-ASCII NFKC netloc check is not modelled: it can only turn a
parse into an error, which never affects the claims below.) -/

/-- The WHATWG C0-control-or-space class stripped from both ends of the URL. -/
def isC0OrSpace (c : Char) : Bool := c.toNat ≤ 0x20

/-- The "unsafe bytes" `\t`, `\r`, `\n` removed everywhere in the URL. -/
def isUnsafeUrlChar (c : Char) : Bool := c == '\t' || c == '\r' || c == '\n'

/-- URL sanitisation performed at the start of `urlsplit`. -/
def sanitizeUrl (s : String) : List Char :=
  (stripWhile isC0OrSpace s.data).filter (fun c => !isUnsafeUrlChar c)

/-- CPython `scheme_chars`: letters, digits, `+`, `-`, `.`. -/
def isSchemeChar (c : Char) : Bool :=
  c.isAlpha || c.isDigit || c == '+' || c == '-' || c == '.'

/-- Head of the candidate scheme must be an (ASCII) letter. -/
def firstIsAlpha : List Char → Bool
  | [] => false
  | c :: _ => c.isAlpha

/-- Scheme recognition of `urlsplit`: a `:` at position `i > 0` preceded
only by scheme characters, the first being a letter, splits off a
lower-cased scheme. -/
def schemeSplit (l : List Char) : List Char × List Char :=
  match l.findIdx? (· == ':') with
  | some i =>
    if 0 < i ∧ (l.take i).all isSchemeChar = true ∧ firstIsAlpha l = true then
      ((l.take i).map Char.toLower, l.drop (i + 1))
    else ([], l)
  | none => ([], l)

/-- A character that terminates the netloc portion (`/`, `?` or `#`). -/
def isNetlocDelim (c : Char) : Bool := c == '/' || c == '?' || c == '#'

/-- Python `url.split(ch, 1)`: the part before the first occurrence of `ch`
and the part after it (the whole list and `[]` when `ch` is absent). -/
def splitFirst (ch : Char) (l : List Char) : List Char × List Char :=
  (l.takeWhile (· != ch), (l.dropWhile (· != ch)).drop 1)

/-- Result record of `urlparse` (the `params` component is already merged
away, as `app.py` never reads it). -/
structure ParseResult where
  scheme : String
  netloc : String
  path : String
  query : String
  fragment : String
deriving DecidableEq, Repr

/-- Model of `urllib.parse.urlsplit`: sanitise, split scheme, split
`//netloc` (raising `ValueError("Invalid IPv6 URL")` on unbalanced square
brackets), then split off fragment and query. -/
def urlsplitPy (url : String) : Except String ParseResult :=
  let l := sanitizeUrl url
  let sr := schemeSplit l
  let nr :=
    if sr.2.take 2 = ['/', '/'] then
      ((sr.2.drop 2).takeWhile (fun c => !isNetlocDelim c),
       (sr.2.drop 2).dropWhile (fun c => !isNetlocDelim c))
    else ([], sr.2)
  if ('[' ∈ nr.1 ∧ ']' ∉ nr.1) ∨ (']' ∈ nr.1 ∧ '[' ∉ nr.1) then
    .error "Invalid IPv6 URL"
  else
    let fr := splitFirst '#' nr.2
    let qr := splitFirst '?' fr.1
    .ok ⟨String.mk sr.1, String.mk nr.1, String.mk qr.1,
         String.mk qr.2, String.mk fr.2⟩

/-- CPython `uses_params`: schemes for which `urlparse` splits `;params`
off the path. -/
def usesParams : List String :=
  ["", "ftp", "hdl", "prospero", "http", "imap", "https", "shttp", "rtsp",
   "rtspu", "sip", "sips", "snews", "svn", "svn+ssh", "sftp", "nfs", "git",
   "git+ssh"]

/-- CPython `_splitparams`: drop everything from the first `;` of the last
path segment (or of the whole path when it has no `/`). -/
def splitParams (p : String) : String :=
  let l := p.data
  if '/' ∈ l then
    let i := l.length - 1 - ((l.reverse.findIdx? (· == '/')).getD 0)
    match (l.drop i).findIdx? (· == ';') with
    | some j => String.mk (l.take (i + j))
    | none => p
  else
    match l.findIdx? (· == ';') with
    | some j => String.mk (l.take j)
    | none => p

/-- Model of `urllib.parse.urlparse` as used by `app.py` (line 26). -/
def urlparsePy (url : String) : Except String ParseResult :=
  match urlsplitPy url with
  | .error e => .error e
  | .ok r =>
    if r.scheme ∈ usesParams ∧ ';' ∈ r.path.data then
      .ok { r with path := splitParams r.path }
    else .ok r

/- ### UTF-8 bytes, percent-encoding (`urllib.parse.quote` / `unquote`) -/

/-- Flatten a list through a list-valued map (explicit recursion keeps the
equations convenient for the proofs below). -/
def listFlat (f : α → List β) : List α → List β
  | [] => []
  | a :: t => f a ++ listFlat f t

/-- UTF-8 encoding of one unicode scalar value (as `Nat`), the byte list
as `Nat`s. -/
def utf8EncodeCp (n : Nat) : List Nat :=
  if n < 0x80 then [n]
  else if n < 0x800 then [0xC0 + n / 64, 0x80 + n % 64]
  else if n < 0x10000 then
    [0xE0 + n / 4096, 0x80 + n / 64 % 64, 0x80 + n % 64]
  else
    [0xF0 + n / 262144, 0x80 + n / 4096 % 64, 0x80 + n / 64 % 64, 0x80 + n % 64]

/-- The UTF-8 byte sequence of a string (Python `s.encode("utf-8")`). -/
def utf8Bytes (s : String) : List Nat :=
  listFlat (fun c => utf8EncodeCp c.toNat) s.data

/-- Classification of a UTF-8 lead byte: `(needed, acc, emit)` where
`needed` is the count of continuation bytes still expected, `acc` the
partial scalar value, and `emit` an immediately complete scalar value
(an ASCII byte, or U+FFFD for a byte that cannot start a sequence). -/
def utf8Lead (b : Nat) : Nat × Nat × Option Nat :=
  if b < 0x80 then (0, 0, some b)
  else if b < 0xC0 then (0, 0, some 0xFFFD)
  else if b < 0xE0 then (1, b - 0xC0, none)
  else if b < 0xF0 then (2, b - 0xE0, none)
  else (3, b - 0xF0, none)

/-- UTF-8 decoding of a byte list back to scalar values, as an incremental
byte-at-a-time state machine; an ill-formed lead or continuation byte
yields U+FFFD and decoding continues (the `errors="replace"` behaviour of
Python's decoder; only well-formed sequences matter for the theorems).
`needed` and `acc` carry the state of a partially read sequence. -/
def utf8DecodeLoop : Nat → Nat → List Nat → List Nat
  | needed, _, [] => if 0 < needed then [0xFFFD] else []
  | needed, acc, b :: rest =>
    if 0 < needed then
      if 0x80 ≤ b ∧ b < 0xC0 then
        if needed = 1 then (acc * 64 + (b - 0x80)) :: utf8DecodeLoop 0 0 rest
        else utf8DecodeLoop (needed - 1) (acc * 64 + (b - 0x80)) rest
      else
        0xFFFD ::
          (match utf8Lead b with
           | (nd, ac, some cp) => cp :: utf8DecodeLoop nd ac rest
           | (nd, ac, none) => utf8DecodeLoop nd ac rest)
    else
      match utf8Lead b with
      | (nd, ac, some cp) => cp :: utf8DecodeLoop nd ac rest
      | (nd, ac, none) => utf8DecodeLoop nd ac rest

/-- UTF-8 decoding of a whole byte list (initial state: no pending
sequence). -/
def utf8DecodeReplace (l : List Nat) : List Nat := utf8DecodeLoop 0 0 l

/-- Upper-case hexadecimal digit (as used by `urllib.parse.quote`). -/
def hexDigitU (n : Nat) : Char :=
  if n < 10 then Char.ofNat ('0'.toNat + n) else Char.ofNat ('A'.toNat + n - 10)

/-- Hexadecimal digit value accepted by `urllib.parse.unquote`
(both cases). -/
def hexVal (c : Char) : Option Nat :=
  if 0x30 ≤ c.toNat ∧ c.toNat ≤ 0x39 then some (c.toNat - 0x30)
  else if 0x41 ≤ c.toNat ∧ c.toNat ≤ 0x46 then some (c.toNat - 0x41 + 10)
  else if 0x61 ≤ c.toNat ∧ c.toNat ≤ 0x66 then some (c.toNat - 0x61 + 10)
  else none

/-- The bytes `urllib.parse.quote` leaves unescaped with its default
`safe="/"`: ASCII alphanumerics, `_`, `.`, `-`, `~` and `/`. -/
def isQuoteSafe (b : Nat) : Bool :=
  decide ((0x41 ≤ b ∧ b ≤ 0x5A) ∨ (0x61 ≤ b ∧ b ≤ 0x7A) ∨
    (0x30 ≤ b ∧ b ≤ 0x39) ∨ b = 0x5F ∨ b = 0x2E ∨ b = 0x2D ∨
    b = 0x7E ∨ b = 0x2F)

/-- Percent-encoding of one byte: safe bytes pass through, all others
become `%XX` with upper-case hex. -/
def pyQuoteByte (b : Nat) : List Char :=
  if isQuoteSafe b then [Char.ofNat b]
  else ['%', hexDigitU (b / 16), hexDigitU (b % 16)]

/-- `urllib.parse.quote(s)` (default `safe="/"`): UTF-8 encode, then
percent-encode byte by byte (`app.py` line 60). -/
def pyQuote (s : String) : String :=
  String.mk (listFlat pyQuoteByte (utf8Bytes s))

/-- Percent-decoding to a byte sequence: `%XX` with two hex digits yields
that byte, any other character contributes its own UTF-8 bytes (a `%` not
followed by two hex digits stays literal, as in `urllib.parse.unquote`). -/
def percentDecodeChars : List Char → List Nat
  | [] => []
  | c :: rest =>
    if c = '%' then
      match rest with
      | c1 :: c2 :: rest2 =>
        match hexVal c1, hexVal c2 with
        | some h1, some h2 => (h1 * 16 + h2) :: percentDecodeChars rest2
        | _, _ => utf8EncodeCp c.toNat ++ percentDecodeChars (c1 :: c2 :: rest2)
      | [c1] => utf8EncodeCp c.toNat ++ percentDecodeChars [c1]
      | [] => utf8EncodeCp c.toNat
    else utf8EncodeCp c.toNat ++ percentDecodeChars rest

/-- `urllib.parse.unquote(s)`: percent-decode to bytes and decode those
as UTF-8 (with replacement on errors). -/
def pyUnquote (s : String) : String :=
  String.mk ((utf8DecodeReplace (percentDecodeChars s.data)).map Char.ofNat)

/-- `+` becomes a space before unquoting in `unquote_plus`. -/
def plusToSpace (s : String) : String :=
  String.mk (s.data.map (fun c => if c = '+' then ' ' else c))

/-- `urllib.parse.unquote_plus`, applied by `parse_qs` to names and
values. -/
def unquote_plus (s : String) : String := pyUnquote (plusToSpace s)

/- ### Model of `urllib.parse.parse_qs` (as read by `app.py` line 36) -/

/-- Python single-character `str.split`: `splitChar ch` cuts the character
list at every occurrence of `ch` (an empty input yields `[[]]`). -/
def splitChar (ch : Char) : List Char → List (List Char)
  | [] => [[]]
  | c :: rest =>
    let r := splitChar ch rest
    if c == ch then [] :: r
    else (c :: r.headD []) :: r.tail

/-- `parse_qsl` with the default settings used by `parse_qs`
(`keep_blank_values=False`, separator `&`): split on `&`, skip empty
fields, skip fields without `=`, skip empty values, unquote-plus names
and values. -/
def parse_qsl_pairs (qs : String) : List (String × String) :=
  (splitChar '&' qs.data).filterMap (fun nv =>
    if nv = [] then none
    else if '=' ∈ nv then
      let value := (nv.dropWhile (· != '=')).drop 1
      if value = [] then none
      else some (unquote_plus (String.mk (nv.takeWhile (· != '='))),
                 unquote_plus (String.mk value))
    else none)

/-- The expression `(parse_qs(u.query).get(key) or [""])[0]` of `app.py`
line 37: the first value parsed for `key`, or `""` when there is none
(`parse_qs` groups values in first-occurrence order). -/
def parse_qs_first (qs key : String) : String :=
  match (parse_qsl_pairs qs).find? (fun p => p.1 == key) with
  | some p => p.2
  | none => ""

/- ### `extract_video_id` (`app.py` lines 13–46)

The Python function is a chain of guarded early returns; each guard that
fails falls through to the next check.  The chain is split into one
definition per check so the invariant proofs can proceed step by step. -/

/-- The `ValueError` message raised when no shape matches
(`app.py` line 46). -/
def extractErrMsg : String := "Video ID çıkarılamadı. Link formatını kontrol et."

/-- Last check: `re.search(r"/shorts/([A-Za-z0-9_-]{11})", u.path)`
(`app.py` lines 42–44), else the final `raise ValueError`. -/
def extractShortsStep (u : ParseResult) : Except String String :=
  match shortsSearch u.path.data with
  | some vid => .ok vid
  | none => .error extractErrMsg

/-- Third check: `u.path == "/watch"` with query parameter `v`
(`app.py` lines 35–39); on failure fall through to the shorts check. -/
def extractWatchStep (u : ParseResult) : Except String String :=
  if u.path = "/watch" then
    if fullmatch11 (parse_qs_first u.query "v") then
      .ok (parse_qs_first u.query "v")
    else extractShortsStep u
  else extractShortsStep u

/-- Second check: `u.netloc in {"youtu.be", "www.youtu.be"}` with an
11-character first path segment (`app.py` lines 29–32); on failure fall
through to the `/watch` check. -/
def extractHostStep (u : ParseResult) : Except String String :=
  if u.netloc = "youtu.be" ∨ u.netloc = "www.youtu.be" then
    if fullmatch11 (firstSegment (stripSlashes u.path)) then
      .ok (firstSegment (stripSlashes u.path))
    else extractWatchStep u
  else extractWatchStep u

/-- `extract_video_id` (`app.py` lines 13–46): strip the input, accept a
bare 11-character id, otherwise parse as URL and try the three URL shapes
in order; raise `ValueError` when nothing matches. -/
def extract_video_id (url : String) : Except String String :=
  if fullmatch11 (pyStrip url) then .ok (pyStrip url)
  else
    match urlparsePy (pyStrip url) with
    | .error e => .error e
    | .ok u => extractHostStep u

/- ### `fetch_transcript_text` (`app.py` lines 49–53)

The provider call is abstracted away: the function is modelled on the
list of raw snippet texts the provider returned, exactly the data the
Python expression
`" ".join(s.text.strip() for s in fetched.snippets if s.text).strip()`
consumes. -/

/-- Python `sep.join(pieces)`: first piece, then `sep ++ piece` for each
following piece (CPython's join is a single left-to-right pass, modelled
as a fold). -/
def pyJoin (sep : String) (pieces : List String) : String :=
  match pieces with
  | [] => ""
  | a :: rest => rest.foldl (fun acc x => acc ++ sep ++ x) a

/-- `fetch_transcript_text` (`app.py` line 53): keep the snippets whose
raw text is non-empty, strip each, join with single spaces, strip the
whole result. -/
def fetch_transcript_text (snippets : List String) : String :=
  pyStrip (pyJoin " " ((snippets.filter (fun s => s != "")).map pyStrip))

/-- Whether a string contains two adjacent space characters. -/
def hasDoubleSpace : List Char → Bool
  | c1 :: c2 :: rest => (c1 == ' ' && c2 == ' ') || hasDoubleSpace (c2 :: rest)
  | _ => false

/- ### `x_intent_url` (`app.py` lines 56–61) -/

/-- `x_intent_url`: the fixed compose-intent template with the
percent-encoded text as the `text` query parameter (`app.py` line 61). -/
def x_intent_url (tweet_text : String) : String :=
  "https://twitter.com/intent/tweet?text=" ++ pyQuote tweet_text

/- ### `generate_3_tweets` (`app.py` lines 64–106)

The prompt construction and the completion call are external; the
modelled portion starts at the `json.loads` of the response body.  The
function is therefore parameterised on the JSON parse result of the
body: `none` when `json.loads` raises, `some v` when it returns value
`v`. -/

/-- JSON values as returned by `json.loads` (numbers collapsed to `Int`;
none of the modelled behaviour inspects numeric values). An object is an
association list in key-insertion order. -/
inductive JValue where
  | jnull : JValue
  | jbool : Bool → JValue
  | jnum : Int → JValue
  | jstr : String → JValue
  | jarr : List JValue → JValue
  | jobj : List (String × JValue) → JValue

/-- Python `dict.get(key, default)` on a parsed JSON object, without the
default: first binding for `key` (a dict parsed by `json.loads` has
distinct keys). -/
def jsonGet (key : String) : List (String × JValue) → Option JValue
  | [] => none
  | kv :: rest => if kv.1 = key then some kv.2 else jsonGet key rest

/-- What `for t in tweets` yields per Python iteration semantics:
a list yields its elements, a string its characters (each a 1-character
string), a dict its keys; `None`, booleans and numbers are not iterable
and raise `TypeError`. -/
def pyIterItems : JValue → Option (List JValue)
  | .jarr l => some l
  | .jstr s => some (s.data.map (fun c => .jstr (String.mk [c])))
  | .jobj kvs => some (kvs.map (fun kv => .jstr kv.1))
  | _ => none

/-- One step of the comprehension filter
`[t.strip() for t in tweets if isinstance(t, str) and t.strip()]`:
keep a string entry precisely when it is non-empty after stripping, and
return it stripped. -/
def tweetEntry : JValue → Option String
  | .jstr s => if pyStrip s = "" then none else some (pyStrip s)
  | _ => none

/-- The `try` block of `generate_3_tweets` (`app.py` lines 99–103),
modelled on the JSON parse result of the response body (`none` when
`json.loads` raises): a parse failure or a non-dict top-level value
(whose `.get` raises `AttributeError`) is caught and yields the Python
list `[]`; a dict yields `obj.get("tweets", [])`. -/
def tweetsValue (parsed : Option JValue) : JValue :=
  match parsed with
  | some (.jobj kvs) => (jsonGet "tweets" kvs).getD (.jarr [])
  | some _ => .jarr []
  | none => .jarr []

/-- The part of `generate_3_tweets` after the `try` block: iterate over the
`tweets` value (raising `TypeError` when it is not iterable), filter and
strip the string entries, truncate to 3. -/
def generate_3_tweets (parsed : Option JValue) : Except String (List String) :=
  match pyIterItems (tweetsValue parsed) with
  | none => .error "TypeError: object is not iterable"
  | some items => .ok ((items.filterMap tweetEntry).take 3)

/- ### Transcript preview (`app.py` line 144) -/

/-- Python slice `s[:n]` on a `str`: the first `n` characters. -/
def pySlice (s : String) (n : Nat) : String := String.mk (s.data.take n)

/-- The preview value passed to the output widget (`app.py` line 144):
`transcript[:2000] + ("..." if len(transcript) > 2000 else "")`. -/
def transcript_preview (transcript : String) : String :=
  pySlice transcript 2000 ++ (if 2000 < transcript.length then "..." else "")

/-! ## Helper lemmas -/

theorem fullmatch11_iff {s : String} :
    fullmatch11 s = true ↔ s.length = 11 ∧ ∀ c ∈ s.data, idAlphabet c = true := by
  simp [fullmatch11]

theorem idAlphabet_not_ws {c : Char} (h : idAlphabet c = true) : isPyWS c = false := by
  simp only [isPyWS, Bool.or_eq_false_iff, beq_eq_false_iff_ne, ne_eq]
  refine ⟨⟨⟨⟨⟨?_, ?_⟩, ?_⟩, ?_⟩, ?_⟩, ?_⟩ <;>
    (rintro rfl; revert h; decide)

theorem dropWhile_eq_self_of {p : Char → Bool} :
    ∀ l : List Char, (∀ c ∈ l, p c = false) → l.dropWhile p = l
  | [], _ => rfl
  | c :: t, h => by
    rw [List.dropWhile_cons, h c (List.mem_cons_self ..)]
    simp

theorem stripWhile_eq_self_of {p : Char → Bool} (l : List Char)
    (h : ∀ c ∈ l, p c = false) : stripWhile p l = l := by
  unfold stripWhile
  rw [dropWhile_eq_self_of l h, dropWhile_eq_self_of l.reverse
    (fun c hc => h c (List.mem_reverse.mp hc)), List.reverse_reverse]

theorem pyStrip_eq_self_of {s : String} (h : ∀ c ∈ s.data, idAlphabet c = true) :
    pyStrip s = s := by
  unfold pyStrip
  rw [stripWhile_eq_self_of s.data (fun c hc => idAlphabet_not_ws (h c hc))]

theorem shortsAt_ok {l : List Char} {v : String} (h : shortsAt l = some v) :
    fullmatch11 v = true := by
  unfold shortsAt at h
  split at h
  · rename_i hc
    cases h
    exact hc.2
  · cases h

theorem shortsSearch_ok : ∀ {l : List Char} {v : String},
    shortsSearch l = some v → fullmatch11 v = true := by
  intro l
  induction l with
  | nil => intro v h; cases h
  | cons c rest ih =>
    intro v h
    unfold shortsSearch at h
    cases hs : shortsAt (c :: rest) with
    | some w => rw [hs] at h; cases h; exact shortsAt_ok hs
    | none => rw [hs] at h; exact ih h

theorem extractShortsStep_ok {u : ParseResult} {v : String}
    (h : extractShortsStep u = .ok v) : fullmatch11 v = true := by
  unfold extractShortsStep at h
  cases hs : shortsSearch u.path.data with
  | some w => rw [hs] at h; cases h; exact shortsSearch_ok hs
  | none => rw [hs] at h; cases h

theorem extractWatchStep_ok {u : ParseResult} {v : String}
    (h : extractWatchStep u = .ok v) : fullmatch11 v = true := by
  unfold extractWatchStep at h
  split at h
  · split at h
    · rename_i hf
      cases h
      exact hf
    · exact extractShortsStep_ok h
  · exact extractShortsStep_ok h

theorem extractHostStep_ok {u : ParseResult} {v : String}
    (h : extractHostStep u = .ok v) : fullmatch11 v = true := by
  unfold extractHostStep at h
  split at h
  · split at h
    · rename_i hf
      cases h
      exact hf
    · exact extractWatchStep_ok h
  · exact extractWatchStep_ok h

/-! ## C1 -/

/-- C1: every string returned successfully by `extract_video_id` is exactly
11 characters long and every character is drawn from `[A-Za-z0-9_-]`; no
other string is ever returned. -/
theorem extract_video_id_valid {url vid : String}
    (h : extract_video_id url = .ok vid) :
    vid.length = 11 ∧ ∀ c ∈ vid.data, idAlphabet c = true := by
  unfold extract_video_id at h
  rw [fullmatch11_iff.symm]
  split at h
  · rename_i hf
    cases h
    exact hf
  · cases hu : urlparsePy (pyStrip url) with
    | error e => rw [hu] at h; cases h
    | ok u => rw [hu] at h; exact extractHostStep_ok h

/-- Witness for C1 at a concrete successful extraction. -/
theorem extract_video_id_valid_witness :
    ("dQw4w9WgXcQ" : String).length = 11 ∧
      ∀ c ∈ ("dQw4w9WgXcQ" : String).data, idAlphabet c = true :=
  @extract_video_id_valid "https://youtu.be/dQw4w9WgXcQ" "dQw4w9WgXcQ" rfl

/-! ## C2 -/

/-- C2: for every string of exactly 11 characters drawn from
`[A-Za-z0-9_-]`, `extract_video_id` returns the input unchanged (the
bare-identifier shape matches first, and trimming leaves such a string
untouched). -/
theorem extract_video_id_bare (s : String) (h1 : s.length = 11)
    (h2 : ∀ c ∈ s.data, idAlphabet c = true) :
    extract_video_id s = .ok s := by
  unfold extract_video_id
  rw [pyStrip_eq_self_of h2, if_pos (fullmatch11_iff.mpr ⟨h1, h2⟩)]

/-- Witness for C2 at a concrete 11-character identifier. -/
theorem extract_video_id_bare_witness :
    extract_video_id "dQw4w9WgXcQ" = .ok "dQw4w9WgXcQ" :=
  extract_video_id_bare "dQw4w9WgXcQ" (by decide) (by decide)

/-! ## C3 -/

/-- C3: `extract_video_id` maps each of the three recognized URL shapes
(short-link, watch with `v` parameter, shorts path) to the embedded
11-character identifier. -/
theorem extract_video_id_url_shapes :
    extract_video_id "https://youtu.be/dQw4w9WgXcQ" = .ok "dQw4w9WgXcQ" ∧
    extract_video_id "https://www.youtube.com/watch?v=dQw4w9WgXcQ&t=10s" =
      .ok "dQw4w9WgXcQ" ∧
    extract_video_id "https://www.youtube.com/shorts/dQw4w9WgXcQ" =
      .ok "dQw4w9WgXcQ" :=
  ⟨rfl, rfl, rfl⟩

/-! ## C4 -/

/-- Guard of the short-link branch (`app.py` lines 29–32) on a parsed URL. -/
def hostShape (u : ParseResult) : Bool :=
  (u.netloc == "youtu.be" || u.netloc == "www.youtu.be") &&
    fullmatch11 (firstSegment (stripSlashes u.path))

/-- Guard of the `/watch` branch (`app.py` lines 35–39) on a parsed URL. -/
def watchShape (u : ParseResult) : Bool :=
  (u.path == "/watch") && fullmatch11 (parse_qs_first u.query "v")

/-- Guard of the `/shorts/` branch (`app.py` lines 42–44) on a parsed URL. -/
def shortsShape (u : ParseResult) : Bool :=
  (shortsSearch u.path.data).isSome

/-- Shape 1: the trimmed input is a bare 11-character identifier. -/
def matchesBare (s : String) : Bool := fullmatch11 (pyStrip s)

/-- Shape 2: the trimmed input parses as a URL whose host is a short-link
domain with an 11-character first path segment. -/
def matchesShortlink (s : String) : Bool :=
  match urlparsePy (pyStrip s) with
  | .ok u => hostShape u
  | .error _ => false

/-- Shape 3: the trimmed input parses as a URL with path `/watch` and a
valid `v` query parameter. -/
def matchesWatch (s : String) : Bool :=
  match urlparsePy (pyStrip s) with
  | .ok u => watchShape u
  | .error _ => false

/-- Shape 4: the trimmed input parses as a URL whose path contains
`/shorts/<11-char-id>`. -/
def matchesShorts (s : String) : Bool :=
  match urlparsePy (pyStrip s) with
  | .ok u => shortsShape u
  | .error _ => false

theorem extractShortsStep_err {u : ParseResult} (h : shortsShape u = false) :
    extractShortsStep u = .error extractErrMsg := by
  unfold extractShortsStep
  unfold shortsShape at h
  cases hs : shortsSearch u.path.data with
  | some w => rw [hs] at h; cases h
  | none => rfl

theorem extractWatchStep_err {u : ParseResult} (h3 : watchShape u = false)
    (h4 : shortsShape u = false) :
    extractWatchStep u = .error extractErrMsg := by
  unfold extractWatchStep
  unfold watchShape at h3
  split
  · rename_i hp
    have hv : fullmatch11 (parse_qs_first u.query "v") = false := by
      simp [hp] at h3
      exact h3
    rw [hv]
    simp only [Bool.false_eq_true, if_false]
    exact extractShortsStep_err h4
  · exact extractShortsStep_err h4

theorem extractHostStep_err {u : ParseResult} (h2 : hostShape u = false)
    (h3 : watchShape u = false) (h4 : shortsShape u = false) :
    extractHostStep u = .error extractErrMsg := by
  unfold extractHostStep
  unfold hostShape at h2
  split
  · rename_i hn
    have hv : fullmatch11 (firstSegment (stripSlashes u.path)) = false := by
      rcases hn with hn | hn <;> simp [hn] at h2 <;> exact h2
    rw [hv]
    simp only [Bool.false_eq_true, if_false]
    exact extractWatchStep_err h3 h4
  · exact extractWatchStep_err h3 h4

/-- C4: for every input string matching none of the four recognized shapes,
`extract_video_id` fails with an error rather than returning a value. -/
theorem extract_video_id_no_shape_fails (s : String)
    (h1 : matchesBare s = false) (h2 : matchesShortlink s = false)
    (h3 : matchesWatch s = false) (h4 : matchesShorts s = false) :
    ∃ e, extract_video_id s = .error e := by
  unfold extract_video_id
  unfold matchesBare at h1
  rw [h1]
  simp only [Bool.false_eq_true, if_false]
  unfold matchesShortlink at h2
  unfold matchesWatch at h3
  unfold matchesShorts at h4
  cases hu : urlparsePy (pyStrip s) with
  | error e => exact ⟨e, rfl⟩
  | ok u =>
    rw [hu] at h2 h3 h4
    exact ⟨extractErrMsg, extractHostStep_err h2 h3 h4⟩

/-- Witness for C4 at the concrete non-URL input `"not a url"`. -/
theorem extract_video_id_no_shape_fails_witness :
    ∃ e, extract_video_id "not a url" = .error e :=
  extract_video_id_no_shape_fails "not a url" rfl rfl rfl rfl

/-! ## C5 -/

/-- The join operation as the spec describes it: pieces joined with a
single space between consecutive pieces. -/
def joinWithSingleSpaces : List String → String
  | [] => ""
  | [s] => s
  | s :: rest => s ++ " " ++ joinWithSingleSpaces rest

theorem joinWithSingleSpaces_shift (a x : String) (t : List String) :
    joinWithSingleSpaces ((a ++ " " ++ x) :: t) =
      a ++ " " ++ joinWithSingleSpaces (x :: t) := by
  cases t with
  | nil => rfl
  | cons y t' =>
    show (a ++ " " ++ x) ++ " " ++ _ = a ++ " " ++ (x ++ " " ++ _)
    simp only [String.append_assoc]

theorem pyJoin_eq_joinWithSingleSpaces (l : List String) :
    pyJoin " " l = joinWithSingleSpaces l := by
  cases l with
  | nil => rfl
  | cons a rest =>
    show rest.foldl (fun acc x => acc ++ " " ++ x) a = _
    induction rest generalizing a with
    | nil => rfl
    | cons x t ih =>
      show t.foldl (fun acc x => acc ++ " " ++ x) (a ++ " " ++ x) = _
      rw [ih (a ++ " " ++ x), joinWithSingleSpaces_shift]
      rfl

/-- C5 counterexample: a whitespace-only fragment is kept by the
non-emptiness filter (it is non-empty before stripping) and contributes
an empty piece, so the fragments `"a"` and `"b"` end up separated by two
spaces — the result contains two adjacent spaces. -/
theorem fetch_transcript_text_double_space :
    fetch_transcript_text ["a", " ", "b"] = "a  b" ∧
      hasDoubleSpace (fetch_transcript_text ["a", " ", "b"]).data = true :=
  ⟨rfl, rfl⟩

/-- C5 (amended): the fetcher returns the trimmed texts of exactly the
fragments whose raw text is non-empty, joined with a single space between
consecutive kept fragments, with the whole result trimmed.  (A
whitespace-only fragment is kept and strips to the empty piece, so two
fragments can end up separated by more than one space.) -/
theorem fetch_transcript_text_spec (snippets : List String) :
    fetch_transcript_text snippets =
      pyStrip (joinWithSingleSpaces
        ((snippets.filter (fun s => s != "")).map pyStrip)) := by
  unfold fetch_transcript_text
  rw [pyJoin_eq_joinWithSingleSpaces]

/-! ## C9 -/

/-- C9: the transcript preview is the whole transcript when it has at most
2000 characters, and the first 2000 characters followed by the `"..."`
truncation marker when it is longer. -/
theorem transcript_preview_spec (s : String) :
    (s.length ≤ 2000 → transcript_preview s = s) ∧
      (2000 < s.length → transcript_preview s = pySlice s 2000 ++ "...") := by
  constructor
  · intro h
    unfold transcript_preview
    rw [if_neg (by omega), String.append_empty]
    show String.mk (s.data.take 2000) = s
    rw [List.take_of_length_le]
    exact show s.data.length ≤ 2000 from h
  · intro h
    unfold transcript_preview
    rw [if_pos h]

/-- A 2001-character transcript used by the preview witness. -/
def sampleLongTranscript : String := String.mk (List.replicate 2001 'a')

/-- Witness for C9: one transcript short enough to pass through unchanged
and one long enough to be cut and marked. -/
theorem transcript_preview_spec_witness :
    transcript_preview "ab" = "ab" ∧
      transcript_preview sampleLongTranscript =
        pySlice sampleLongTranscript 2000 ++ "..." :=
  ⟨(transcript_preview_spec "ab").1 (by decide),
   (transcript_preview_spec sampleLongTranscript).2 (by
      show 2000 < (List.replicate 2001 'a').length
      rw [List.length_replicate]
      omega)⟩

/-! ## C6 -/

/-- C6: for every response body parsing as a JSON object whose `tweets`
key holds an array, the summarizer keeps exactly the entries that are
non-empty strings after trimming, trimmed, truncated to the first 3; in
particular the four-string body yields the first three and the
blank-entries body yields only the non-blank one. -/
theorem generate_3_tweets_array_filter :
    (∀ (kvs : List (String × JValue)) (l : List JValue),
        jsonGet "tweets" kvs = some (.jarr l) →
        generate_3_tweets (some (.jobj kvs)) =
          .ok ((l.filterMap tweetEntry).take 3)) ∧
    generate_3_tweets (some (.jobj [("tweets",
        .jarr [.jstr "x", .jstr "y", .jstr "z", .jstr "w"])])) =
      .ok ["x", "y", "z"] ∧
    generate_3_tweets (some (.jobj [("tweets",
        .jarr [.jstr "", .jstr "  ", .jstr "valid one"])])) =
      .ok ["valid one"] := by
  refine ⟨?_, rfl, rfl⟩
  intro kvs l h
  have ht : tweetsValue (some (.jobj kvs)) = .jarr l := by
    show (jsonGet "tweets" kvs).getD (.jarr []) = .jarr l
    rw [h]
    rfl
  unfold generate_3_tweets
  rw [ht]
  rfl

/-- Witness for C6 at a concrete parsed body with a mixed array. -/
theorem generate_3_tweets_array_filter_witness :
    generate_3_tweets (some (.jobj [("tweets",
        .jarr [.jstr " a ", .jnum 1, .jstr ""])])) =
      .ok (([JValue.jstr " a ", JValue.jnum 1,
        JValue.jstr ""].filterMap tweetEntry).take 3) :=
  generate_3_tweets_array_filter.1 _ _ rfl

/-! ## C7 -/

/-- C7: a body that does not parse as JSON, and a body that parses but has
no `tweets` key (an object lacking the key, or any non-object value, whose
`.get` access raises and is caught), makes the summarizer return the
empty list instead of failing. -/
theorem generate_3_tweets_soft_degrade :
    generate_3_tweets none = .ok [] ∧
    (∀ kvs, jsonGet "tweets" kvs = none →
        generate_3_tweets (some (.jobj kvs)) = .ok []) ∧
    (∀ v : JValue, (∀ kvs, v ≠ .jobj kvs) →
        generate_3_tweets (some v) = .ok []) := by
  refine ⟨rfl, ?_, ?_⟩
  · intro kvs h
    have ht : tweetsValue (some (.jobj kvs)) = .jarr [] := by
      show (jsonGet "tweets" kvs).getD (.jarr []) = .jarr []
      rw [h]
      rfl
    unfold generate_3_tweets
    rw [ht]
    rfl
  · intro v hv
    cases v with
    | jobj kvs => exact absurd rfl (hv kvs)
    | jnull => rfl
    | jbool b => rfl
    | jnum n => rfl
    | jstr s => rfl
    | jarr l => rfl

/-- Witness for C7: an object body without a `tweets` key and a non-object
body both yield the empty list. -/
theorem generate_3_tweets_soft_degrade_witness :
    generate_3_tweets (some (.jobj [("other", .jnull)])) = .ok [] ∧
      generate_3_tweets (some (.jnum 7)) = .ok [] :=
  ⟨generate_3_tweets_soft_degrade.2.1 [("other", .jnull)] rfl,
   generate_3_tweets_soft_degrade.2.2 (.jnum 7) (fun _ h => JValue.noConfusion h)⟩

/-! ## C10 -/

/-- C10: a body parsing as a JSON object whose `tweets` value is neither a
list nor a string — here `{"tweets": 5}` — escapes the soft-degrade `try`
block: the comprehension iterates over a non-iterable and the summarizer
raises an uncaught `TypeError` instead of returning a list. -/
theorem generate_3_tweets_non_iterable :
    generate_3_tweets (some (.jobj [("tweets", .jnum 5)])) =
      .error "TypeError: object is not iterable" := rfl

/-! ## C8 -/

theorem char_toNat_lt (c : Char) : c.toNat < 0x110000 := by
  rcases c.valid with h | ⟨_, h⟩
  · exact Nat.lt_trans h (by decide)
  · exact h

theorem charToNat_ofNat {b : Nat} (h : b < 0xD800) : (Char.ofNat b).toNat = b := by
  unfold Char.ofNat
  rw [dif_pos (Or.inl h)]
  rfl

theorem utf8EncodeCp_bytes_lt {n : Nat} (h : n < 0x110000) :
    ∀ b ∈ utf8EncodeCp n, b < 256 := by
  intro b hb
  unfold utf8EncodeCp at hb
  split at hb
  · simp at hb
    omega
  · split at hb
    · simp at hb
      rcases hb with hb | hb <;> omega
    · split at hb
      · simp at hb
        rcases hb with hb | hb | hb <;> omega
      · simp at hb
        rcases hb with hb | hb | hb | hb <;> omega

theorem mem_listFlat {f : α → List β} :
    ∀ {l : List α} {b : β}, b ∈ listFlat f l → ∃ a ∈ l, b ∈ f a := by
  intro l
  induction l with
  | nil => intro b hb; cases hb
  | cons a t ih =>
    intro b hb
    rcases List.mem_append.mp hb with hb | hb
    · exact ⟨a, List.mem_cons_self .., hb⟩
    · rcases ih hb with ⟨a', ha', hba'⟩
      exact ⟨a', List.mem_cons_of_mem _ ha', hba'⟩

theorem utf8Bytes_lt (s : String) : ∀ b ∈ utf8Bytes s, b < 256 := by
  intro b hb
  rcases mem_listFlat hb with ⟨c, _, hbc⟩
  exact utf8EncodeCp_bytes_lt (char_toNat_lt c) b hbc

theorem utf8DecodeLoop_zero (b : Nat) (rest : List Nat) :
    utf8DecodeLoop 0 0 (b :: rest) =
      match utf8Lead b with
      | (nd, ac, some cp) => cp :: utf8DecodeLoop nd ac rest
      | (nd, ac, none) => utf8DecodeLoop nd ac rest := rfl

theorem utf8DecodeLoop_cont (needed acc b : Nat) (rest : List Nat)
    (h : 1 < needed) (hb : 0x80 ≤ b ∧ b < 0xC0) :
    utf8DecodeLoop needed acc (b :: rest) =
      utf8DecodeLoop (needed - 1) (acc * 64 + (b - 0x80)) rest := by
  simp only [utf8DecodeLoop]
  rw [if_pos (by omega), if_pos hb, if_neg (by omega)]

theorem utf8DecodeLoop_last (acc b : Nat) (rest : List Nat)
    (hb : 0x80 ≤ b ∧ b < 0xC0) :
    utf8DecodeLoop 1 acc (b :: rest) =
      (acc * 64 + (b - 0x80)) :: utf8DecodeLoop 0 0 rest := by
  simp only [utf8DecodeLoop]
  rw [if_pos (by omega), if_pos hb]
  simp

theorem utf8_decode_encode_cp (n : Nat) (h : n < 0x110000) (l : List Nat) :
    utf8DecodeLoop 0 0 (utf8EncodeCp n ++ l) = n :: utf8DecodeLoop 0 0 l := by
  unfold utf8EncodeCp
  by_cases h1 : n < 0x80
  · rw [if_pos h1]
    show utf8DecodeLoop 0 0 (n :: l) = _
    rw [utf8DecodeLoop_zero]
    have hlead : utf8Lead n = (0, 0, some n) := by
      unfold utf8Lead
      rw [if_pos h1]
    rw [hlead]
  · rw [if_neg h1]
    by_cases h2 : n < 0x800
    · rw [if_pos h2]
      show utf8DecodeLoop 0 0 ((0xC0 + n / 64) :: (0x80 + n % 64) :: l) = _
      rw [utf8DecodeLoop_zero]
      have hlead : utf8Lead (0xC0 + n / 64) = (1, n / 64, none) := by
        unfold utf8Lead
        rw [if_neg (by omega), if_neg (by omega), if_pos (by omega)]
        have : 0xC0 + n / 64 - 0xC0 = n / 64 := by omega
        rw [this]
      rw [hlead]
      show utf8DecodeLoop 1 (n / 64) ((0x80 + n % 64) :: l) = _
      rw [utf8DecodeLoop_last (n / 64) (0x80 + n % 64) l ⟨by omega, by omega⟩]
      exact congrArg (fun m => m :: utf8DecodeLoop 0 0 l) (by omega)
    · rw [if_neg h2]
      by_cases h3 : n < 0x10000
      · rw [if_pos h3]
        show utf8DecodeLoop 0 0
          ((0xE0 + n / 4096) :: (0x80 + n / 64 % 64) :: (0x80 + n % 64) :: l) = _
        rw [utf8DecodeLoop_zero]
        have hlead : utf8Lead (0xE0 + n / 4096) = (2, n / 4096, none) := by
          unfold utf8Lead
          rw [if_neg (by omega), if_neg (by omega), if_neg (by omega),
            if_pos (by omega)]
          have : 0xE0 + n / 4096 - 0xE0 = n / 4096 := by omega
          rw [this]
        rw [hlead]
        show utf8DecodeLoop 2 (n / 4096)
          ((0x80 + n / 64 % 64) :: (0x80 + n % 64) :: l) = _
        rw [utf8DecodeLoop_cont 2 (n / 4096) (0x80 + n / 64 % 64)
            ((0x80 + n % 64) :: l) (by omega) ⟨by omega, by omega⟩,
          utf8DecodeLoop_last (n / 4096 * 64 + (0x80 + n / 64 % 64 - 0x80))
            (0x80 + n % 64) l ⟨by omega, by omega⟩]
        exact congrArg (fun m => m :: utf8DecodeLoop 0 0 l) (by omega)
      · rw [if_neg h3]
        show utf8DecodeLoop 0 0 ((0xF0 + n / 262144) :: (0x80 + n / 4096 % 64) ::
          (0x80 + n / 64 % 64) :: (0x80 + n % 64) :: l) = _
        rw [utf8DecodeLoop_zero]
        have hlead : utf8Lead (0xF0 + n / 262144) = (3, n / 262144, none) := by
          unfold utf8Lead
          rw [if_neg (by omega), if_neg (by omega), if_neg (by omega),
            if_neg (by omega)]
          have : 0xF0 + n / 262144 - 0xF0 = n / 262144 := by omega
          rw [this]
        rw [hlead]
        show utf8DecodeLoop 3 (n / 262144) ((0x80 + n / 4096 % 64) ::
          (0x80 + n / 64 % 64) :: (0x80 + n % 64) :: l) = _
        rw [utf8DecodeLoop_cont 3 (n / 262144) (0x80 + n / 4096 % 64)
            ((0x80 + n / 64 % 64) :: (0x80 + n % 64) :: l)
            (by omega) ⟨by omega, by omega⟩,
          utf8DecodeLoop_cont 2 (n / 262144 * 64 + (0x80 + n / 4096 % 64 - 0x80))
            (0x80 + n / 64 % 64) ((0x80 + n % 64) :: l)
            (by omega) ⟨by omega, by omega⟩,
          utf8DecodeLoop_last
            ((n / 262144 * 64 + (0x80 + n / 4096 % 64 - 0x80)) * 64 +
              (0x80 + n / 64 % 64 - 0x80))
            (0x80 + n % 64) l ⟨by omega, by omega⟩]
        exact congrArg (fun m => m :: utf8DecodeLoop 0 0 l) (by omega)

theorem utf8_decode_encode_list (cs : List Char) :
    utf8DecodeReplace (listFlat (fun c => utf8EncodeCp c.toNat) cs) =
      cs.map Char.toNat := by
  unfold utf8DecodeReplace
  induction cs with
  | nil => rfl
  | cons c t ih =>
    show utf8DecodeLoop 0 0 (utf8EncodeCp c.toNat ++ _) = _
    rw [utf8_decode_encode_cp c.toNat (char_toNat_lt c), ih]
    rfl

theorem hexVal_hexDigitU {x : Nat} (h : x < 16) : hexVal (hexDigitU x) = some x := by
  interval_cases x <;> decide

theorem percentDecodeChars_char (c : Char) (rest : List Char) (hne : c ≠ '%') :
    percentDecodeChars (c :: rest) =
      utf8EncodeCp c.toNat ++ percentDecodeChars rest := by
  rw [percentDecodeChars.eq_def]
  split
  · rename_i heq
    cases heq
  · rename_i c' rest' heq
    cases heq
    rw [if_neg hne]

theorem percentDecodeChars_pct (c1 c2 : Char) (rest : List Char)
    (h1 h2 : Nat) (e1 : hexVal c1 = some h1) (e2 : hexVal c2 = some h2) :
    percentDecodeChars ('%' :: c1 :: c2 :: rest) =
      (h1 * 16 + h2) :: percentDecodeChars rest := by
  simp only [percentDecodeChars, if_true]
  rw [e1, e2]

theorem percentDecode_quoteByte (b : Nat) (h : b < 256) (cs : List Char) :
    percentDecodeChars (pyQuoteByte b ++ cs) = b :: percentDecodeChars cs := by
  unfold pyQuoteByte
  by_cases hs : isQuoteSafe b = true
  · rw [if_pos hs]
    unfold isQuoteSafe at hs
    replace hs := of_decide_eq_true hs
    have hb : b < 0x80 ∧ b ≠ 0x25 := by
      rcases hs with h | h | h | h | h | h | h | h <;> exact ⟨by omega, by omega⟩
    have hne : Char.ofNat b ≠ '%' := by
      intro hc
      have h37 := congrArg Char.toNat hc
      rw [charToNat_ofNat (by omega),
        show ('%' : Char).toNat = 37 from rfl] at h37
      exact hb.2 h37
    show percentDecodeChars (Char.ofNat b :: cs) = _
    rw [percentDecodeChars_char _ _ hne, charToNat_ofNat (by omega)]
    unfold utf8EncodeCp
    rw [if_pos hb.1]
    rfl
  · rw [if_neg hs]
    show percentDecodeChars
      ('%' :: hexDigitU (b / 16) :: hexDigitU (b % 16) :: cs) = _
    rw [percentDecodeChars_pct _ _ _ _ _
      (hexVal_hexDigitU (by omega)) (hexVal_hexDigitU (by omega))]
    exact congrArg (fun m => m :: percentDecodeChars cs) (by omega)

theorem percentDecode_quote_list :
    ∀ bytes : List Nat, (∀ b ∈ bytes, b < 256) →
      percentDecodeChars (listFlat pyQuoteByte bytes) = bytes := by
  intro bytes h
  induction bytes with
  | nil => rfl
  | cons b t ih =>
    show percentDecodeChars (pyQuoteByte b ++ _) = _
    rw [percentDecode_quoteByte b (h b (List.mem_cons_self ..)) _,
      ih (fun x hx => h x (List.mem_cons_of_mem _ hx))]

/-- Round trip of the share-link encoding: percent-decoding the output of
`urllib.parse.quote` recovers the original string exactly. -/
theorem pyUnquote_pyQuote (s : String) : pyUnquote (pyQuote s) = s := by
  unfold pyUnquote pyQuote
  show String.mk ((utf8DecodeReplace (percentDecodeChars
    (listFlat pyQuoteByte (utf8Bytes s)))).map Char.ofNat) = s
  rw [percentDecode_quote_list _ (utf8Bytes_lt s)]
  unfold utf8Bytes
  rw [utf8_decode_encode_list s.data, List.map_map]
  rw [List.map_id'' (f := Char.ofNat ∘ Char.toNat) (fun c => Char.ofNat_toNat c)]

/-- C8: for every text string the share-link builder produces the fixed
compose-intent URL with the percent-encoded text as the query value, and
percent-decoding that encoded component reproduces the original text
exactly; in particular the encoding of `"a b&c"` round-trips to
`"a b&c"`. -/
theorem x_intent_url_roundtrip (s : String) :
    x_intent_url s = "https://twitter.com/intent/tweet?text=" ++ pyQuote s ∧
    pyUnquote (pyQuote s) = s ∧
    pyUnquote (pyQuote "a b&c") = "a b&c" :=
  ⟨rfl, pyUnquote_pyQuote s, pyUnquote_pyQuote "a b&c"⟩
